import Mathlib

/-!
Shallow embedding of the Battleships game core found in
src/src/components/PlacementConsole.tsx.

The file contains two near-duplicate App implementations.  The first App
(file lines 1369-2295) is the current one; the second App (file lines
2596-3354) is an older retained variant.  Where their game logic differs the
embedding carries both versions: the plain names model the first App, and the
names suffixed with Legacy model the second App.

Presentation-only state (messages, missiles, explosion/fire effects, preview
cells, crosshair) is omitted; all rule-relevant state is carried.
The asynchronous animation delays of the source collapse to atomic state
transitions: each embedded step function performs exactly the mutations that
one full invocation of the corresponding source function eventually performs.
-/

namespace Battleships

inductive CellState where
  | empty
  | ship
  | hit
  | miss
deriving DecidableEq

structure Cell where
  state : CellState
  shipId : Option Nat := none
deriving DecidableEq

inductive Orientation where
  | horizontal
  | vertical
deriving DecidableEq

def BOARD_SIZE : Nat := 15

abbrev Board := Nat → Nat → Cell

def emptyCell : Cell := { state := CellState.empty, shipId := none }

def emptyBoard : Board := fun _ _ => emptyCell

def updateCell (b : Board) (r c : Nat) (x : Cell) : Board :=
  fun r' c' => if r' = r ∧ c' = c then x else b r' c'

def readCell? (b : Board) (r c : Int) : Option Cell :=
  if 0 ≤ r ∧ r < (BOARD_SIZE : Int) ∧ 0 ≤ c ∧ c < (BOARD_SIZE : Int) then
    some (b r.toNat c.toNat)
  else
    none

def footprintWidth (width length : Nat) : Orientation → Nat
  | Orientation.horizontal => length
  | Orientation.vertical => width

def footprintHeight (width length : Nat) : Orientation → Nat
  | Orientation.horizontal => width
  | Orientation.vertical => length

def rowHasShip (b : Board) (r : Nat) : Nat → Nat → Bool
  | _, 0 => false
  | c, n + 1 =>
    if (b r c).state = CellState.ship then true else rowHasShip b r (c + 1) n

def footHasShip (b : Board) : Nat → Nat → Nat → Nat → Bool
  | _, _, 0, _ => false
  | row, col, m + 1, fw =>
    if rowHasShip b row col fw then true else footHasShip b (row + 1) col m fw

def cellIsShipAt (b : Board) (r c : Int) : Bool :=
  match readCell? b r c with
  | some cell => cell.state = CellState.ship
  | none => false

def adjRowHasShip (b : Board) (r : Int) : Int → Nat → Bool
  | _, 0 => false
  | c, n + 1 =>
    if cellIsShipAt b r c then true else adjRowHasShip b r (c + 1) n

def adjHasShip (b : Board) : Int → Int → Nat → Nat → Bool
  | _, _, 0, _ => false
  | r, c, m + 1, cols =>
    if adjRowHasShip b r c cols then true else adjHasShip b (r + 1) c m cols

def canPlaceShip (b : Board) (row col width length : Nat)
    (o : Orientation) : Bool :=
  let fw := footprintWidth width length o
  let fh := footprintHeight width length o
  if col + fw > BOARD_SIZE ∨ row + fh > BOARD_SIZE then false
  else if footHasShip b row col fh fw then false
  else if adjHasShip b ((row : Int) - 1) ((col : Int) - 1) (fh + 2) (fw + 2)
    then false
  else true

def rowHasShipI (b : Board) (r : Int) : Int → Nat → Option Bool
  | _, 0 => some false
  | c, n + 1 =>
    match readCell? b r c with
    | none => none
    | some cell =>
      if cell.state = CellState.ship then some true
      else rowHasShipI b r (c + 1) n

def footHasShipI (b : Board) : Int → Int → Nat → Nat → Option Bool
  | _, _, 0, _ => some false
  | row, col, m + 1, fw =>
    match rowHasShipI b row col fw with
    | none => none
    | some true => some true
    | some false => footHasShipI b (row + 1) col m fw

def canPlaceShipI (b : Board) (row col : Int) (width length : Nat)
    (o : Orientation) : Option Bool :=
  let fw := footprintWidth width length o
  let fh := footprintHeight width length o
  if col + fw > (BOARD_SIZE : Int) ∨ row + fh > (BOARD_SIZE : Int) then
    some false
  else
    match footHasShipI b row col fh fw with
    | none => none
    | some true => some false
    | some false =>
      if adjHasShip b (row - 1) (col - 1) (fh + 2) (fw + 2) then some false
      else some true

def placeRow : Board → Nat → Nat → Nat → Nat → Board
  | b, _, _, _, 0 => b
  | b, r, c, sid, n + 1 =>
    placeRow (updateCell b r c { state := CellState.ship, shipId := some sid })
      r (c + 1) sid n

def placeRect : Board → Nat → Nat → Nat → Nat → Nat → Board
  | b, _, _, _, 0, _ => b
  | b, row, col, sid, m + 1, fw =>
    placeRect (placeRow b row col sid fw) (row + 1) col sid m fw

def placeShip (b : Board) (row col width length : Nat) (o : Orientation)
    (shipId : Nat) : Board :=
  let fw := footprintWidth width length o
  let fh := footprintHeight width length o
  placeRect b row col shipId fh fw

def inFootprint (row col fh fw r c : Nat) : Prop :=
  row ≤ r ∧ r < row + fh ∧ col ≤ c ∧ c < col + fw

instance (row col fh fw r c : Nat) :
    Decidable (inFootprint row col fh fw r c) := by
  unfold inFootprint; infer_instance

def inExpandedFootprint (row col fh fw r c : Nat) : Prop :=
  row ≤ r + 1 ∧ r ≤ row + fh ∧ col ≤ c + 1 ∧ c ≤ col + fw

instance (row col fh fw r c : Nat) :
    Decidable (inExpandedFootprint row col fh fw r c) := by
  unfold inExpandedFootprint; infer_instance

structure Ship where
  id : Nat
  name : String
  size : Nat
  width : Nat
  length : Nat
  hits : Nat
  sunk : Bool
deriving DecidableEq

inductive Side where
  | player
  | ai
deriving DecidableEq

inductive GamePhase where
  | title
  | instructions
  | placement
  | battle
  | gameOver
deriving DecidableEq

def SHIPS : List Ship :=
  [{ id := 1, name := "Carrier", size := 14, width := 2, length := 7,
     hits := 0, sunk := false },
   { id := 2, name := "Battleship", size := 7, width := 1, length := 7,
     hits := 0, sunk := false },
   { id := 3, name := "Cruiser", size := 5, width := 1, length := 5,
     hits := 0, sunk := false },
   { id := 4, name := "Destroyer", size := 4, width := 1, length := 4,
     hits := 0, sunk := false },
   { id := 5, name := "Submarine", size := 5, width := 1, length := 5,
     hits := 0, sunk := false },
   { id := 6, name := "Rescue", size := 4, width := 1, length := 4,
     hits := 0, sunk := false },
   { id := 7, name := "Patrol", size := 2, width := 1, length := 2,
     hits := 0, sunk := false }]

def freshFleet : List Ship :=
  SHIPS.map (fun s => { s with hits := 0, sunk := false })

structure GameState where
  gamePhase : GamePhase
  playerBoard : Board
  aiBoard : Board
  playerShips : List Ship
  aiShips : List Ship
  currentShipIndex : Nat
  isPlayerTurn : Bool
  winner : Option Side
  attackInProgress : Bool
  aiTargetQueue : List (Nat × Nat)
  lastHit : Option (Nat × Nat)

def initializeGame (s : GameState) : GameState :=
  { s with
    playerBoard := emptyBoard
    aiBoard := emptyBoard
    playerShips := freshFleet
    aiShips := freshFleet
    currentShipIndex := 0
    isPlayerTurn := true
    winner := none
    aiTargetQueue := []
    lastHit := none }

def resetGame (s : GameState) : GameState :=
  { initializeGame s with gamePhase := GamePhase.instructions }

def hitFleet : List Ship → Option Nat → List Ship
  | [], _ => []
  | sh :: rest, sid =>
    if sid = some sh.id then
      { sh with
        hits := sh.hits + 1
        sunk := if sh.hits + 1 = sh.size then true else sh.sunk } :: rest
    else sh :: hitFleet rest sid

def shipJustSunk : List Ship → Option Nat → Bool
  | [], _ => false
  | sh :: rest, sid =>
    if sid = some sh.id then decide (sh.hits + 1 = sh.size)
    else shipJustSunk rest sid

def cellResolved (b : Board) (r c : Nat) : Bool :=
  decide ((b r c).state = CellState.hit ∨ (b r c).state = CellState.miss)

def handleAttack (s : GameState) (row col : Nat) : GameState :=
  if s.isPlayerTurn = false ∨ s.gamePhase ≠ GamePhase.battle ∨
      (s.aiBoard row col).state = CellState.hit ∨
      (s.aiBoard row col).state = CellState.miss ∨
      s.attackInProgress = true then s
  else
    let cell := s.aiBoard row col
    if cell.state = CellState.ship then
      let newBoard := updateCell s.aiBoard row col
        { cell with state := CellState.hit }
      let newShips := hitFleet s.aiShips cell.shipId
      let allSunk := newShips.all (fun sh => sh.sunk)
      { s with
        aiBoard := newBoard
        aiShips := newShips
        winner := if allSunk then some Side.player else s.winner
        gamePhase := if allSunk then GamePhase.gameOver else s.gamePhase
        attackInProgress := false }
    else
      let newBoard := updateCell s.aiBoard row col
        { cell with state := CellState.miss }
      let allSunk := s.aiShips.all (fun sh => sh.sunk)
      { s with
        aiBoard := newBoard
        isPlayerTurn := if allSunk then s.isPlayerTurn else false
        attackInProgress := false }

def handleAttackLegacy (s : GameState) (row col : Nat) : GameState :=
  if s.isPlayerTurn = false ∨ s.gamePhase ≠ GamePhase.battle ∨
      (s.aiBoard row col).state = CellState.hit ∨
      (s.aiBoard row col).state = CellState.miss ∨
      s.attackInProgress = true then s
  else
    let cell := s.aiBoard row col
    if cell.state = CellState.ship then
      let newBoard := updateCell s.aiBoard row col
        { cell with state := CellState.hit }
      let newShips := hitFleet s.aiShips cell.shipId
      let allSunk := newShips.all (fun sh => sh.sunk)
      { s with
        aiBoard := newBoard
        aiShips := newShips
        winner := if allSunk then some Side.player else s.winner
        gamePhase := if allSunk then GamePhase.gameOver else s.gamePhase
        isPlayerTurn := if allSunk then s.isPlayerTurn else false
        attackInProgress := false }
    else
      let newBoard := updateCell s.aiBoard row col
        { cell with state := CellState.miss }
      let allSunk := s.aiShips.all (fun sh => sh.sunk)
      { s with
        aiBoard := newBoard
        isPlayerTurn := if allSunk then s.isPlayerTurn else false
        attackInProgress := false }

def orthNeighbors (r c : Nat) : List (Int × Int) :=
  [((r : Int) - 1, (c : Int)), ((r : Int) + 1, (c : Int)),
   ((r : Int), (c : Int) - 1), ((r : Int), (c : Int) + 1)]

def unresolvedNeighbors (b : Board) (r c : Nat) : List (Nat × Nat) :=
  (orthNeighbors r c).filterMap (fun p =>
    if 0 ≤ p.1 ∧ p.1 < (BOARD_SIZE : Int) ∧ 0 ≤ p.2 ∧ p.2 < (BOARD_SIZE : Int)
        ∧ (b p.1.toNat p.2.toNat).state ≠ CellState.hit
        ∧ (b p.1.toNat p.2.toNat).state ≠ CellState.miss
    then some (p.1.toNat, p.2.toNat) else none)

def aiChooseTarget (s : GameState) (adjPick : Nat)
    (randList : List (Nat × Nat)) :
    Option ((Nat × Nat) × List (Nat × Nat) × Option (Nat × Nat)) :=
  match s.aiTargetQueue with
  | head :: rest => some (head, rest, s.lastHit)
  | [] =>
    match s.lastHit with
    | some (lastRow, lastCol) =>
      let adjacentCells := unresolvedNeighbors s.playerBoard lastRow lastCol
      if adjacentCells.isEmpty then
        match randList.find? (fun p => ! cellResolved s.playerBoard p.1 p.2)
        with
        | some t => some (t, [], none)
        | none => none
      else
        some (adjacentCells.getD (adjPick % adjacentCells.length) (0, 0),
          [], some (lastRow, lastCol))
    | none =>
      match randList.find? (fun p => ! cellResolved s.playerBoard p.1 p.2)
      with
      | some t => some (t, [], none)
      | none => none

def aiResolveAttack (s : GameState) (targetRow targetCol : Nat) :
    GameState :=
  let cell := s.playerBoard targetRow targetCol
  if cell.state = CellState.ship then
    let newBoard := updateCell s.playerBoard targetRow targetCol
      { cell with state := CellState.hit }
    let adjacentCells := unresolvedNeighbors newBoard targetRow targetCol
    let queueWithAdj := s.aiTargetQueue ++ adjacentCells
    let newShips := hitFleet s.playerShips cell.shipId
    let justSunk := shipJustSunk s.playerShips cell.shipId
    let allSunk := newShips.all (fun sh => sh.sunk)
    { s with
      playerBoard := newBoard
      playerShips := newShips
      lastHit := if justSunk then none else some (targetRow, targetCol)
      aiTargetQueue := if justSunk then [] else queueWithAdj
      winner := if allSunk then some Side.ai else s.winner
      gamePhase := if allSunk then GamePhase.gameOver else s.gamePhase }
  else
    let newBoard := updateCell s.playerBoard targetRow targetCol
      { cell with state := CellState.miss }
    let allSunk := s.playerShips.all (fun sh => sh.sunk)
    { s with
      playerBoard := newBoard
      isPlayerTurn := if allSunk then s.isPlayerTurn else true }

def aiTurnStep (s : GameState) (adjPick : Nat)
    (randList : List (Nat × Nat)) : GameState :=
  match aiChooseTarget s adjPick randList with
  | none => s
  | some (t, newQueue, newLastHit) =>
    aiResolveAttack
      { s with aiTargetQueue := newQueue, lastHit := newLastHit } t.1 t.2

def tryPlaceLoop (randOracle : Nat → Orientation × Nat × Nat) (ship : Ship) :
    Nat → Board → Nat → Board × Nat
  | 0, b, attempts => (b, attempts)
  | fuel + 1, b, attempts =>
    let sample := randOracle attempts
    if canPlaceShip b sample.2.1 sample.2.2 ship.width ship.length sample.1
    then
      (placeShip b sample.2.1 sample.2.2 ship.width ship.length sample.1
        ship.id, attempts + 1)
    else
      tryPlaceLoop randOracle ship fuel b (attempts + 1)

def placeOneShip (randOracle : Nat → Orientation × Nat × Nat)
    (acc : Board × Nat) (ship : Ship) : Board × Nat :=
  tryPlaceLoop randOracle ship 1000 acc.1 acc.2

def placeAIShips (randOracle : Nat → Orientation × Nat × Nat) : Board :=
  (SHIPS.foldl (placeOneShip randOracle) (emptyBoard, 0)).1

def freshPatrol : Ship :=
  { id := 7, name := "Patrol", size := 2, width := 1, length := 2,
    hits := 0, sunk := false }

def patrolHitOnce : Ship := { freshPatrol with hits := 1 }

def patrolBoard : Board :=
  updateCell
    (updateCell emptyBoard 0 0 { state := CellState.ship, shipId := some 7 })
    0 1 { state := CellState.ship, shipId := some 7 }

def hitPatrolBoard : Board :=
  updateCell
    (updateCell emptyBoard 0 0 { state := CellState.hit, shipId := some 7 })
    0 1 { state := CellState.ship, shipId := some 7 }

def missBoard : Board :=
  updateCell emptyBoard 0 0 { state := CellState.miss, shipId := none }

def battleState : GameState :=
  { gamePhase := GamePhase.battle
    playerBoard := patrolBoard
    aiBoard := patrolBoard
    playerShips := [freshPatrol]
    aiShips := [freshPatrol]
    currentShipIndex := 7
    isPlayerTurn := true
    winner := none
    attackInProgress := false
    aiTargetQueue := []
    lastHit := none }

def queuedResolvedState : GameState :=
  { gamePhase := GamePhase.battle
    playerBoard := hitPatrolBoard
    aiBoard := emptyBoard
    playerShips := [patrolHitOnce]
    aiShips := [freshPatrol]
    currentShipIndex := 7
    isPlayerTurn := false
    winner := none
    attackInProgress := false
    aiTargetQueue := [(0, 0)]
    lastHit := some (0, 0) }

def staleQueueState : GameState :=
  { gamePhase := GamePhase.battle
    playerBoard := missBoard
    aiBoard := emptyBoard
    playerShips := [freshPatrol]
    aiShips := [freshPatrol]
    currentShipIndex := 7
    isPlayerTurn := false
    winner := none
    attackInProgress := false
    aiTargetQueue := [(0, 0), (0, 1)]
    lastHit := none }

def constOracle : Nat → Orientation × Nat × Nat :=
  fun _ => (Orientation.horizontal, 0, 0)

def carrierOnlyBoard : Board :=
  placeShip emptyBoard 0 0 2 7 Orientation.horizontal 1

def countShipCells (b : Board) (sid : Nat) : Nat :=
  ((List.range BOARD_SIZE).map fun r =>
    (List.range BOARD_SIZE).countP fun c =>
      decide ((b r c).shipId = some sid)).sum

/-! Supporting lemmas. -/

lemma rowHasShip_iff (b : Board) (r : Nat) :
    ∀ (n c : Nat), rowHasShip b r c n = true ↔
      ∃ j, j < n ∧ (b r (c + j)).state = CellState.ship := by
  intro n
  induction n with
  | zero => intro c; simp [rowHasShip]
  | succ n ih =>
    intro c
    rw [rowHasShip]
    by_cases h : (b r c).state = CellState.ship
    · simp only [if_pos h, true_iff]
      exact ⟨0, Nat.succ_pos n, by simpa using h⟩
    · rw [if_neg h, ih (c + 1)]
      constructor
      · rintro ⟨j, hj, hs⟩
        refine ⟨j + 1, by omega, ?_⟩
        rwa [show c + (j + 1) = c + 1 + j by omega]
      · rintro ⟨j, hj, hs⟩
        match j with
        | 0 => exact absurd (by simpa using hs) h
        | j + 1 =>
          refine ⟨j, by omega, ?_⟩
          rwa [show c + 1 + j = c + (j + 1) by omega]

lemma footHasShip_iff (b : Board) :
    ∀ (m row col fw : Nat), footHasShip b row col m fw = true ↔
      ∃ i, i < m ∧ ∃ j, j < fw ∧
        (b (row + i) (col + j)).state = CellState.ship := by
  intro m
  induction m with
  | zero => intro row col fw; simp [footHasShip]
  | succ m ih =>
    intro row col fw
    rw [footHasShip]
    by_cases h : rowHasShip b row col fw = true
    · simp only [if_pos h, true_iff]
      obtain ⟨j, hj, hs⟩ := (rowHasShip_iff b row fw col).mp h
      exact ⟨0, Nat.succ_pos m, j, hj, by simpa using hs⟩
    · rw [if_neg h, ih (row + 1) col fw]
      constructor
      · rintro ⟨i, hi, j, hj, hs⟩
        refine ⟨i + 1, by omega, j, hj, ?_⟩
        rwa [show row + (i + 1) = row + 1 + i by omega]
      · rintro ⟨i, hi, j, hj, hs⟩
        match i with
        | 0 =>
          exact absurd ((rowHasShip_iff b row fw col).mpr
            ⟨j, hj, by simpa using hs⟩) h
        | i + 1 =>
          refine ⟨i, by omega, j, hj, ?_⟩
          rwa [show row + 1 + i = row + (i + 1) by omega]

lemma cellIsShipAt_iff (b : Board) (r c : Int) :
    cellIsShipAt b r c = true ↔
      0 ≤ r ∧ r < (BOARD_SIZE : Int) ∧ 0 ≤ c ∧ c < (BOARD_SIZE : Int) ∧
        (b r.toNat c.toNat).state = CellState.ship := by
  unfold cellIsShipAt readCell?
  by_cases h : 0 ≤ r ∧ r < (BOARD_SIZE : Int) ∧ 0 ≤ c ∧ c < (BOARD_SIZE : Int)
  · rw [if_pos h]
    simp only [decide_eq_true_eq]
    exact ⟨fun hs => ⟨h.1, h.2.1, h.2.2.1, h.2.2.2, hs⟩, fun hs => hs.2.2.2.2⟩
  · rw [if_neg h]
    simp only [Bool.false_eq_true, false_iff]
    intro hs
    exact h ⟨hs.1, hs.2.1, hs.2.2.1, hs.2.2.2.1⟩

lemma adjRowHasShip_iff (b : Board) (r : Int) :
    ∀ (n : Nat) (c : Int), adjRowHasShip b r c n = true ↔
      ∃ j : Nat, j < n ∧ cellIsShipAt b r (c + j) = true := by
  intro n
  induction n with
  | zero => intro c; simp [adjRowHasShip]
  | succ n ih =>
    intro c
    rw [adjRowHasShip]
    by_cases h : cellIsShipAt b r c = true
    · simp only [if_pos h, true_iff]
      exact ⟨0, Nat.succ_pos n, by simpa using h⟩
    · rw [if_neg h, ih (c + 1)]
      constructor
      · rintro ⟨j, hj, hs⟩
        refine ⟨j + 1, by omega, ?_⟩
        rwa [show c + (j + 1 : Nat) = c + 1 + j by omega]
      · rintro ⟨j, hj, hs⟩
        match j with
        | 0 => exact absurd (by simpa using hs) h
        | j + 1 =>
          refine ⟨j, by omega, ?_⟩
          rwa [show c + 1 + (j : Nat) = c + ((j : Nat) + 1) by omega]

lemma adjHasShip_iff (b : Board) :
    ∀ (m : Nat) (r c : Int) (cols : Nat), adjHasShip b r c m cols = true ↔
      ∃ i : Nat, i < m ∧ ∃ j : Nat, j < cols ∧
        cellIsShipAt b (r + i) (c + j) = true := by
  intro m
  induction m with
  | zero => intro r c cols; simp [adjHasShip]
  | succ m ih =>
    intro r c cols
    rw [adjHasShip]
    by_cases h : adjRowHasShip b r c cols = true
    · simp only [if_pos h, true_iff]
      obtain ⟨j, hj, hs⟩ := (adjRowHasShip_iff b r cols c).mp h
      exact ⟨0, Nat.succ_pos m, j, hj, by simpa using hs⟩
    · rw [if_neg h, ih (r + 1) c cols]
      constructor
      · rintro ⟨i, hi, j, hj, hs⟩
        refine ⟨i + 1, by omega, j, hj, ?_⟩
        rwa [show r + ((i : Nat) + 1 : Nat) = r + 1 + i by omega]
      · rintro ⟨i, hi, j, hj, hs⟩
        match i with
        | 0 =>
          exact absurd ((adjRowHasShip_iff b r cols c).mpr
            ⟨j, hj, by simpa using hs⟩) h
        | i + 1 =>
          refine ⟨i, by omega, j, hj, ?_⟩
          rwa [show r + 1 + (i : Nat) = r + ((i : Nat) + 1) by omega]

lemma placeRow_get (r sid : Nat) :
    ∀ (n : Nat) (b : Board) (c r' c' : Nat),
      (placeRow b r c sid n) r' c' =
        if r' = r ∧ c ≤ c' ∧ c' < c + n
        then { state := CellState.ship, shipId := some sid } else b r' c' := by
  intro n
  induction n with
  | zero =>
    intro b c r' c'
    rw [placeRow, if_neg]
    omega
  | succ n ih =>
    intro b c r' c'
    rw [placeRow, ih]
    by_cases h : r' = r ∧ c + 1 ≤ c' ∧ c' < c + 1 + n
    · rw [if_pos h, if_pos (by omega)]
    · rw [if_neg h]
      unfold updateCell
      by_cases h2 : r' = r ∧ c' = c
      · rw [if_pos h2, if_pos (by omega)]
      · rw [if_neg h2, if_neg (by omega)]

lemma placeRect_get (col sid fw : Nat) :
    ∀ (m : Nat) (b : Board) (row r' c' : Nat),
      (placeRect b row col sid m fw) r' c' =
        if row ≤ r' ∧ r' < row + m ∧ col ≤ c' ∧ c' < col + fw
        then { state := CellState.ship, shipId := some sid } else b r' c' := by
  intro m
  induction m with
  | zero =>
    intro b row r' c'
    rw [placeRect, if_neg]
    omega
  | succ m ih =>
    intro b row r' c'
    rw [placeRect, ih, placeRow_get]
    by_cases h : row + 1 ≤ r' ∧ r' < row + 1 + m ∧ col ≤ c' ∧ c' < col + fw
    · rw [if_pos h, if_pos (by omega)]
    · rw [if_neg h]
      by_cases h2 : r' = row ∧ col ≤ c' ∧ c' < col + fw
      · rw [if_pos h2, if_pos (by omega)]
      · rw [if_neg h2, if_neg (by omega)]

lemma rowHasShipI_eq (b : Board) (r : Int) (hr0 : 0 ≤ r)
    (hr15 : r < (BOARD_SIZE : Int)) :
    ∀ (n : Nat) (c : Int), 0 ≤ c → c + n ≤ (BOARD_SIZE : Int) →
      rowHasShipI b r c n = some (rowHasShip b r.toNat c.toNat n) := by
  intro n
  induction n with
  | zero => intro c _ _; rw [rowHasShipI, rowHasShip]
  | succ n ih =>
    intro c hc0 hcn
    have hread : readCell? b r c = some (b r.toNat c.toNat) := by
      rw [readCell?, if_pos ⟨hr0, hr15, hc0, by omega⟩]
    have hc1 : (c + 1).toNat = c.toNat + 1 := by omega
    by_cases h : (b r.toNat c.toNat).state = CellState.ship
    · simp only [rowHasShipI, rowHasShip, hread, if_pos h]
    · simp only [rowHasShipI, rowHasShip, hread, if_neg h]
      rw [ih (c + 1) (by omega) (by omega), hc1]

lemma footHasShipI_eq (b : Board) (fw : Nat) :
    ∀ (m : Nat) (row col : Int), 0 ≤ row → row + m ≤ (BOARD_SIZE : Int) →
      0 ≤ col → col + fw ≤ (BOARD_SIZE : Int) →
      footHasShipI b row col m fw =
        some (footHasShip b row.toNat col.toNat m fw) := by
  intro m
  induction m with
  | zero => intro row col _ _ _ _; rw [footHasShipI, footHasShip]
  | succ m ih =>
    intro row col hrow0 hrowm hcol0 hcolw
    have hrw := rowHasShipI_eq b row hrow0 (by omega) fw col hcol0 hcolw
    have hr1 : (row + 1).toNat = row.toNat + 1 := by omega
    by_cases h : rowHasShip b row.toNat col.toNat fw = true
    · simp only [footHasShipI, footHasShip, hrw, h, if_true]
    · rw [Bool.not_eq_true] at h
      simp only [footHasShipI, footHasShip, hrw, h, Bool.false_eq_true,
        if_false]
      rw [ih (row + 1) col (by omega) (by omega) hcol0 hcolw, hr1]

lemma canPlaceShipI_eq (b : Board) (row col : Int) (width length : Nat)
    (o : Orientation) (hrow : 0 ≤ row) (hcol : 0 ≤ col) :
    canPlaceShipI b row col width length o =
      some (canPlaceShip b row.toNat col.toNat width length o) := by
  simp only [canPlaceShipI, canPlaceShip]
  by_cases hb : col + (footprintWidth width length o : Int) > (BOARD_SIZE : Int)
      ∨ row + (footprintHeight width length o : Int) > (BOARD_SIZE : Int)
  · have hbN : col.toNat + footprintWidth width length o > BOARD_SIZE
        ∨ row.toNat + footprintHeight width length o > BOARD_SIZE := by omega
    rw [if_pos hb, if_pos hbN]
  · have hbN : ¬(col.toNat + footprintWidth width length o > BOARD_SIZE
        ∨ row.toNat + footprintHeight width length o > BOARD_SIZE) := by omega
    rw [if_neg hb, if_neg hbN]
    have hfoot := footHasShipI_eq b (footprintWidth width length o)
      (footprintHeight width length o) row col hrow (by omega) hcol (by omega)
    have e1 : ((row.toNat : Int)) = row := Int.toNat_of_nonneg hrow
    have e2 : ((col.toNat : Int)) = col := Int.toNat_of_nonneg hcol
    cases hx : footHasShip b row.toNat col.toNat
        (footprintHeight width length o) (footprintWidth width length o) with
    | true => simp only [hfoot, hx, if_true]
    | false =>
      simp only [hfoot, hx, Bool.false_eq_true, if_false, e1, e2]
      by_cases hadj : adjHasShip b (row - 1) (col - 1)
          (footprintHeight width length o + 2)
          (footprintWidth width length o + 2) = true
      · rw [if_pos hadj, if_pos hadj]
      · rw [if_neg hadj, if_neg hadj]

lemma updateCell_self (b : Board) (r c : Nat) (x : Cell) :
    (updateCell b r c x) r c = x := by
  unfold updateCell
  rw [if_pos ⟨rfl, rfl⟩]

lemma hitFleet_append (sid : Nat) :
    ∀ (pre : List Ship) (sh : Ship) (rest : List Ship),
      sh.id = sid → (∀ x ∈ pre, x.id ≠ sid) →
      hitFleet (pre ++ sh :: rest) (some sid) =
        pre ++ { sh with
          hits := sh.hits + 1
          sunk := if sh.hits + 1 = sh.size then true else sh.sunk } :: rest
    := by
  intro pre
  induction pre with
  | nil =>
    intro sh rest hid _
    simp [hitFleet, hid]
  | cons x xs ih =>
    intro sh rest hid hpre
    have hx : x.id ≠ sid := hpre x (List.mem_cons_self x xs)
    simp only [List.cons_append, hitFleet]
    rw [if_neg (fun h => hx (Option.some.inj h).symm)]
    simp only [List.append_eq]
    rw [ih sh rest hid (fun y hy => hpre y (List.mem_cons_of_mem x hy))]

lemma foldl_step {α β : Type} (f : α → β → α) (a b : α) (x : β)
    (xs : List β) (h : f a x = b) :
    List.foldl f a (x :: xs) = List.foldl f b xs := by
  rw [List.foldl_cons, h]

lemma tryPlaceLoop_first_success (randOracle : Nat → Orientation × Nat × Nat)
    (ship : Ship) (fuel : Nat) (b : Board) (attempts : Nat)
    (h : canPlaceShip b (randOracle attempts).2.1 (randOracle attempts).2.2
      ship.width ship.length (randOracle attempts).1 = true) :
    tryPlaceLoop randOracle ship (fuel + 1) b attempts =
      (placeShip b (randOracle attempts).2.1 (randOracle attempts).2.2
        ship.width ship.length (randOracle attempts).1 ship.id,
        attempts + 1) := by
  simp only [tryPlaceLoop]
  rw [if_pos h]

lemma tryPlaceLoop_exhaust (randOracle : Nat → Orientation × Nat × Nat)
    (ship : Ship) :
    ∀ (fuel : Nat) (b : Board) (attempts : Nat),
      ((List.range fuel).all fun j =>
        ! canPlaceShip b (randOracle (attempts + j)).2.1
          (randOracle (attempts + j)).2.2 ship.width ship.length
          (randOracle (attempts + j)).1) = true →
      tryPlaceLoop randOracle ship fuel b attempts = (b, attempts + fuel)
    := by
  intro fuel
  induction fuel with
  | zero =>
    intro b attempts _
    rw [tryPlaceLoop]
    simp
  | succ fuel ih =>
    intro b attempts hall
    rw [List.all_eq_true] at hall
    have h0 := hall 0 (List.mem_range.mpr (Nat.succ_pos fuel))
    rw [Bool.not_eq_true', Nat.add_zero] at h0
    have hrec : ((List.range fuel).all fun j =>
        ! canPlaceShip b (randOracle (attempts + 1 + j)).2.1
          (randOracle (attempts + 1 + j)).2.2 ship.width ship.length
          (randOracle (attempts + 1 + j)).1) = true := by
      rw [List.all_eq_true]
      intro j hj
      have hmem : j + 1 ∈ List.range (fuel + 1) :=
        List.mem_range.mpr (Nat.succ_lt_succ (List.mem_range.mp hj))
      have := hall (j + 1) hmem
      rwa [show attempts + (j + 1) = attempts + 1 + j by omega] at this
    simp only [tryPlaceLoop]
    rw [if_neg (by rw [h0]; exact Bool.false_ne_true)]
    rw [ih b (attempts + 1) hrec]
    refine congrArg _ ?_
    omega

/-! Theorems for the claims, with witnesses and counterexamples. -/

theorem canPlaceShip_correct (b : Board) (row col width length : Nat)
    (o : Orientation) (hw : 1 ≤ width) (hl : 1 ≤ length) :
    canPlaceShip b row col width length o = true ↔
      ((∀ r c, inFootprint row col (footprintHeight width length o)
          (footprintWidth width length o) r c →
          r < BOARD_SIZE ∧ c < BOARD_SIZE) ∧
       (∀ r c, inFootprint row col (footprintHeight width length o)
          (footprintWidth width length o) r c →
          (b r c).state ≠ CellState.ship) ∧
       (∀ r c, r < BOARD_SIZE → c < BOARD_SIZE →
          inExpandedFootprint row col (footprintHeight width length o)
            (footprintWidth width length o) r c →
          (b r c).state ≠ CellState.ship)) := by
  have hfw : 1 ≤ footprintWidth width length o := by
    cases o <;> simpa [footprintWidth]
  have hfh : 1 ≤ footprintHeight width length o := by
    cases o <;> simpa [footprintHeight]
  simp only [canPlaceShip]
  by_cases hb : col + footprintWidth width length o > BOARD_SIZE
      ∨ row + footprintHeight width length o > BOARD_SIZE
  · rw [if_pos hb]
    simp only [Bool.false_eq_true, false_iff]
    rintro ⟨h1, _, _⟩
    have hf : inFootprint row col (footprintHeight width length o)
        (footprintWidth width length o)
        (row + footprintHeight width length o - 1)
        (col + footprintWidth width length o - 1) := by
      unfold inFootprint; omega
    have := h1 _ _ hf
    omega
  · rw [if_neg hb]
    by_cases hfoot : footHasShip b row col (footprintHeight width length o)
        (footprintWidth width length o) = true
    · rw [if_pos hfoot]
      simp only [Bool.false_eq_true, false_iff]
      rintro ⟨_, h2, _⟩
      obtain ⟨i, hi, j, hj, hs⟩ := (footHasShip_iff b _ _ _ _).mp hfoot
      exact h2 _ _ (by unfold inFootprint; omega) hs
    · rw [if_neg hfoot]
      by_cases hadj : adjHasShip b ((row : Int) - 1) ((col : Int) - 1)
          (footprintHeight width length o + 2)
          (footprintWidth width length o + 2) = true
      · rw [if_pos hadj]
        simp only [Bool.false_eq_true, false_iff]
        rintro ⟨_, _, h3⟩
        obtain ⟨i, hi, j, hj, hs⟩ := (adjHasShip_iff b _ _ _ _).mp hadj
        rw [cellIsShipAt_iff] at hs
        obtain ⟨hr0, hr15, hc0, hc15, hship⟩ := hs
        refine h3 ((row : Int) - 1 + i).toNat ((col : Int) - 1 + j).toNat
          (by omega) (by omega) ?_ hship
        unfold inExpandedFootprint
        omega
      · rw [if_neg hadj]
        simp only [true_iff]
        refine ⟨?_, ?_, ?_⟩
        · intro r c hf
          unfold inFootprint at hf
          omega
        · intro r c hf hs
          unfold inFootprint at hf
          refine hfoot ((footHasShip_iff b _ _ _ _).mpr
            ⟨r - row, by omega, c - col, by omega, ?_⟩)
          rw [show row + (r - row) = r by omega,
            show col + (c - col) = c by omega]
          exact hs
        · intro r c hr hc hexp hs
          unfold inExpandedFootprint at hexp
          refine hadj ((adjHasShip_iff b _ _ _ _).mpr
            ⟨r + 1 - row, by omega, c + 1 - col, by omega, ?_⟩)
          rw [cellIsShipAt_iff]
          refine ⟨by omega, by omega, by omega, by omega, ?_⟩
          rw [show ((row : Int) - 1 + ((r + 1 - row : Nat) : Int)).toNat = r
              by omega,
            show ((col : Int) - 1 + ((c + 1 - col : Nat) : Int)).toNat = c
              by omega]
          exact hs

theorem canPlaceShip_correct_witness :
    1 ≤ 1 ∧ 1 ≤ 2 ∧
      canPlaceShip emptyBoard 0 0 1 2 Orientation.horizontal = true := by
  refine ⟨Nat.le_refl 1, by omega, ?_⟩
  refine (canPlaceShip_correct emptyBoard 0 0 1 2 Orientation.horizontal
    (Nat.le_refl 1) (by omega)).mpr ⟨?_, ?_, ?_⟩
  · intro r c hf
    unfold inFootprint at hf
    simp only [footprintHeight, footprintWidth] at hf
    unfold BOARD_SIZE
    omega
  · intro r c _
    intro hs
    exact absurd hs (by unfold emptyBoard emptyCell; intro h; cases h)
  · intro r c _ _ _
    intro hs
    exact absurd hs (by unfold emptyBoard emptyCell; intro h; cases h)

theorem placeShip_frame (b : Board) (row col width length : Nat)
    (o : Orientation) (sid : Nat) (r c : Nat) :
    (placeShip b row col width length o sid) r c =
      if inFootprint row col (footprintHeight width length o)
          (footprintWidth width length o) r c
      then { state := CellState.ship, shipId := some sid } else b r c := by
  simp only [placeShip]
  rw [placeRect_get]
  by_cases h : inFootprint row col (footprintHeight width length o)
      (footprintWidth width length o) r c
  · have h' : row ≤ r ∧ r < row + footprintHeight width length o ∧
        col ≤ c ∧ c < col + footprintWidth width length o := h
    rw [if_pos h', if_pos h]
  · have h' : ¬(row ≤ r ∧ r < row + footprintHeight width length o ∧
        col ≤ c ∧ c < col + footprintWidth width length o) := h
    rw [if_neg h', if_neg h]

theorem canPlaceShip_negative_row_unsafe :
    canPlaceShipI emptyBoard (-1) 0 1 1 Orientation.horizontal = none ∧
    ∀ (b : Board) (row col : Int) (width length : Nat) (o : Orientation),
      0 ≤ row → 0 ≤ col →
      canPlaceShipI b row col width length o =
        some (canPlaceShip b row.toNat col.toNat width length o) := by
  constructor
  · decide
  · intro b row col width length o hrow hcol
    exact canPlaceShipI_eq b row col width length o hrow hcol

theorem canPlaceShip_negative_row_unsafe_witness :
    0 ≤ (2 : Int) ∧ 0 ≤ (3 : Int) ∧
      canPlaceShipI emptyBoard 2 3 1 2 Orientation.horizontal =
        some (canPlaceShip emptyBoard 2 3 1 2 Orientation.horizontal) := by
  refine ⟨by omega, by omega, ?_⟩
  have h := canPlaceShip_negative_row_unsafe.2 emptyBoard 2 3 1 2
    Orientation.horizontal (by omega) (by omega)
  simpa using h

theorem hit_cell_rewritten_to_miss :
    (queuedResolvedState.playerBoard 0 0).state = CellState.hit ∧
    ((aiTurnStep queuedResolvedState 0 []).playerBoard 0 0).state =
      CellState.miss := by
  constructor
  · decide
  · decide

theorem legacy_hit_flips_turn :
    (handleAttack battleState 0 0).isPlayerTurn = true ∧
    (aiTurnStep { battleState with isPlayerTurn := false } 0
      [(0, 0)]).isPlayerTurn = false ∧
    (handleAttackLegacy battleState 0 0).isPlayerTurn = false := by
  refine ⟨?_, ?_, ?_⟩
  · decide
  · decide
  · decide

theorem handleAttack_second_call_noop (s : GameState) (row col : Nat) :
    (((s.aiBoard row col).state = CellState.hit ∨
        (s.aiBoard row col).state = CellState.miss) →
      handleAttack s row col = s) ∧
    ((((handleAttack s row col).aiBoard row col).state = CellState.hit ∨
        ((handleAttack s row col).aiBoard row col).state = CellState.miss) →
      handleAttack (handleAttack s row col) row col =
        handleAttack s row col) := by
  have noop : ∀ t : GameState,
      ((t.aiBoard row col).state = CellState.hit ∨
        (t.aiBoard row col).state = CellState.miss) →
      handleAttack t row col = t := by
    intro t ht
    unfold handleAttack
    rw [if_pos (Or.inr (Or.inr (ht.imp id Or.inl)))]
  exact ⟨noop s, noop (handleAttack s row col)⟩

theorem handleAttack_second_call_noop_witness :
    (((handleAttack battleState 0 0).aiBoard 0 0).state = CellState.hit ∨
      ((handleAttack battleState 0 0).aiBoard 0 0).state = CellState.miss) ∧
    handleAttack (handleAttack battleState 0 0) 0 0 =
      handleAttack battleState 0 0 :=
  ⟨Or.inl (by decide),
    (handleAttack_second_call_noop battleState 0 0).2 (Or.inl (by decide))⟩

theorem ai_selects_resolved_target :
    cellResolved staleQueueState.playerBoard 0 0 = true ∧
    aiChooseTarget staleQueueState 0 [] =
      some ((0, 0), [(0, 1)], none) := by
  constructor
  · decide
  · decide

theorem resetGame_phase_not_placement :
    (resetGame battleState).gamePhase ≠ GamePhase.placement ∧
    (resetGame battleState).gamePhase = GamePhase.instructions := by
  constructor
  · decide
  · decide

theorem resetGame_reinitializes (s : GameState) :
    (resetGame s).gamePhase = GamePhase.instructions ∧
    (∀ r c, (resetGame s).playerBoard r c = emptyCell) ∧
    (∀ r c, (resetGame s).aiBoard r c = emptyCell) ∧
    (resetGame s).playerShips.all
      (fun sh => decide (sh.hits = 0 ∧ sh.sunk = false)) = true ∧
    (resetGame s).aiShips.all
      (fun sh => decide (sh.hits = 0 ∧ sh.sunk = false)) = true ∧
    (resetGame s).winner = none ∧
    (resetGame s).aiTargetQueue = [] ∧
    (resetGame s).lastHit = none := by
  refine ⟨rfl, fun r c => rfl, fun r c => rfl, ?_, ?_, rfl, rfl, rfl⟩
  · show freshFleet.all (fun sh => decide (sh.hits = 0 ∧ sh.sunk = false))
      = true
    decide
  · show freshFleet.all (fun sh => decide (sh.hits = 0 ∧ sh.sunk = false))
      = true
    decide

theorem attack_resolution_correct :
    (∀ (s : GameState) (row col sid : Nat) (pre rest : List Ship) (sh : Ship),
      s.isPlayerTurn = true → s.gamePhase = GamePhase.battle →
      s.attackInProgress = false →
      (s.aiBoard row col).state = CellState.ship →
      (s.aiBoard row col).shipId = some sid →
      s.aiShips = pre ++ sh :: rest → sh.id = sid →
      (∀ x ∈ pre, x.id ≠ sid) →
      ((handleAttack s row col).aiBoard row col =
          { state := CellState.hit, shipId := some sid } ∧
        (handleAttack s row col).aiShips = pre ++ { sh with
          hits := sh.hits + 1
          sunk := if sh.hits + 1 = sh.size then true else sh.sunk } :: rest ∧
        ((handleAttack s row col).aiShips.all (fun x => x.sunk) = true →
          (handleAttack s row col).winner = some Side.player ∧
          (handleAttack s row col).gamePhase = GamePhase.gameOver) ∧
        ((handleAttack s row col).aiShips.all (fun x => x.sunk) = false →
          (handleAttack s row col).winner = s.winner ∧
          (handleAttack s row col).gamePhase = GamePhase.battle))) ∧
    (∀ (s : GameState) (row col : Nat),
      s.isPlayerTurn = true → s.gamePhase = GamePhase.battle →
      s.attackInProgress = false →
      (s.aiBoard row col).state = CellState.empty →
      ((handleAttack s row col).aiBoard row col).state = CellState.miss ∧
      (handleAttack s row col).aiShips = s.aiShips) ∧
    (∀ (s : GameState) (tr tc sid : Nat) (pre rest : List Ship) (sh : Ship),
      (s.playerBoard tr tc).state = CellState.ship →
      (s.playerBoard tr tc).shipId = some sid →
      s.playerShips = pre ++ sh :: rest → sh.id = sid →
      (∀ x ∈ pre, x.id ≠ sid) →
      ((aiResolveAttack s tr tc).playerBoard tr tc =
          { state := CellState.hit, shipId := some sid } ∧
        (aiResolveAttack s tr tc).playerShips = pre ++ { sh with
          hits := sh.hits + 1
          sunk := if sh.hits + 1 = sh.size then true else sh.sunk } :: rest ∧
        ((aiResolveAttack s tr tc).playerShips.all (fun x => x.sunk) = true →
          (aiResolveAttack s tr tc).winner = some Side.ai ∧
          (aiResolveAttack s tr tc).gamePhase = GamePhase.gameOver) ∧
        ((aiResolveAttack s tr tc).playerShips.all (fun x => x.sunk) = false →
          (aiResolveAttack s tr tc).winner = s.winner ∧
          (aiResolveAttack s tr tc).gamePhase = s.gamePhase))) ∧
    (∀ (s : GameState) (tr tc : Nat),
      (s.playerBoard tr tc).state = CellState.empty →
      ((aiResolveAttack s tr tc).playerBoard tr tc).state = CellState.miss ∧
      (aiResolveAttack s tr tc).playerShips = s.playerShips) := by
  refine ⟨?_, ?_, ?_, ?_⟩
  · intro s row col sid pre rest sh hT hB hP hship hsid hfleet hid hpre
    have hguard : ¬(s.isPlayerTurn = false ∨
        s.gamePhase ≠ GamePhase.battle ∨
        (s.aiBoard row col).state = CellState.hit ∨
        (s.aiBoard row col).state = CellState.miss ∨
        s.attackInProgress = true) := by
      simp [hT, hB, hP, hship]
    unfold handleAttack
    rw [if_neg hguard, if_pos hship]
    refine ⟨?_, ?_, ?_, ?_⟩
    · show updateCell s.aiBoard row col
        { s.aiBoard row col with state := CellState.hit } row col = _
      rw [updateCell_self]
      show Cell.mk CellState.hit (s.aiBoard row col).shipId = _
      rw [hsid]
    · show hitFleet s.aiShips (s.aiBoard row col).shipId = _
      rw [hsid, hfleet, hitFleet_append sid pre sh rest hid hpre]
    · intro hall
      constructor
      · show (if (hitFleet s.aiShips (s.aiBoard row col).shipId).all
            (fun x => x.sunk) then some Side.player else s.winner) = _
        rw [if_pos (by simpa using hall)]
      · show (if (hitFleet s.aiShips (s.aiBoard row col).shipId).all
            (fun x => x.sunk) then GamePhase.gameOver else s.gamePhase) = _
        rw [if_pos (by simpa using hall)]
    · intro hall
      constructor
      · show (if (hitFleet s.aiShips (s.aiBoard row col).shipId).all
            (fun x => x.sunk) then some Side.player else s.winner) = _
        rw [if_neg (by simp_all)]
      · show (if (hitFleet s.aiShips (s.aiBoard row col).shipId).all
            (fun x => x.sunk) then GamePhase.gameOver else s.gamePhase) = _
        rw [if_neg (by simp_all), hB]
  · intro s row col hT hB hP hempty
    have hguard : ¬(s.isPlayerTurn = false ∨
        s.gamePhase ≠ GamePhase.battle ∨
        (s.aiBoard row col).state = CellState.hit ∨
        (s.aiBoard row col).state = CellState.miss ∨
        s.attackInProgress = true) := by
      simp [hT, hB, hP, hempty]
    have hnship : ¬(s.aiBoard row col).state = CellState.ship := by
      rw [hempty]; intro h; cases h
    unfold handleAttack
    rw [if_neg hguard, if_neg hnship]
    refine ⟨?_, rfl⟩
    show (updateCell s.aiBoard row col
      { s.aiBoard row col with state := CellState.miss } row col).state =
        CellState.miss
    rw [updateCell_self]
  · intro s tr tc sid pre rest sh hship hsid hfleet hid hpre
    unfold aiResolveAttack
    rw [if_pos hship]
    refine ⟨?_, ?_, ?_, ?_⟩
    · show updateCell s.playerBoard tr tc
        { s.playerBoard tr tc with state := CellState.hit } tr tc = _
      rw [updateCell_self]
      show Cell.mk CellState.hit (s.playerBoard tr tc).shipId = _
      rw [hsid]
    · show hitFleet s.playerShips (s.playerBoard tr tc).shipId = _
      rw [hsid, hfleet, hitFleet_append sid pre sh rest hid hpre]
    · intro hall
      constructor
      · show (if (hitFleet s.playerShips (s.playerBoard tr tc).shipId).all
            (fun x => x.sunk) then some Side.ai else s.winner) = _
        rw [if_pos (by simpa using hall)]
      · show (if (hitFleet s.playerShips (s.playerBoard tr tc).shipId).all
            (fun x => x.sunk) then GamePhase.gameOver else s.gamePhase) = _
        rw [if_pos (by simpa using hall)]
    · intro hall
      constructor
      · show (if (hitFleet s.playerShips (s.playerBoard tr tc).shipId).all
            (fun x => x.sunk) then some Side.ai else s.winner) = _
        rw [if_neg (by simp_all)]
      · show (if (hitFleet s.playerShips (s.playerBoard tr tc).shipId).all
            (fun x => x.sunk) then GamePhase.gameOver else s.gamePhase) = _
        rw [if_neg (by simp_all)]
  · intro s tr tc hempty
    have hnship : ¬(s.playerBoard tr tc).state = CellState.ship := by
      rw [hempty]; intro h; cases h
    unfold aiResolveAttack
    rw [if_neg hnship]
    refine ⟨?_, rfl⟩
    show (updateCell s.playerBoard tr tc
      { s.playerBoard tr tc with state := CellState.miss } tr tc).state =
        CellState.miss
    rw [updateCell_self]

theorem attack_resolution_correct_witness :
    battleState.isPlayerTurn = true ∧
    (battleState.aiBoard 0 0).state = CellState.ship ∧
    (handleAttack battleState 0 0).aiBoard 0 0 =
      { state := CellState.hit, shipId := some 7 } ∧
    (handleAttack battleState 0 0).aiShips = [patrolHitOnce] := by
  have h := attack_resolution_correct.1 battleState 0 0 7 [] []
    freshPatrol (by decide) (by decide) (by decide) (by decide) (by decide)
    (by decide) (by decide) (by simp)
  refine ⟨by decide, by decide, h.1, ?_⟩
  rw [h.2.1]
  decide

theorem placeAIShips_skips_exhausted_ship
    (randOracle : Nat → Orientation × Nat × Nat) (ship : Ship) (fuel : Nat)
    (b : Board) (attempts : Nat)
    (h : ((List.range fuel).all fun j =>
      ! canPlaceShip b (randOracle (attempts + j)).2.1
        (randOracle (attempts + j)).2.2 ship.width ship.length
        (randOracle (attempts + j)).1) = true) :
    tryPlaceLoop randOracle ship fuel b attempts = (b, attempts + fuel) :=
  tryPlaceLoop_exhaust randOracle ship fuel b attempts h

theorem placeAIShips_skips_exhausted_ship_witness :
    ((List.range 2).all fun j =>
      ! canPlaceShip carrierOnlyBoard (constOracle (0 + j)).2.1
        (constOracle (0 + j)).2.2
        (Ship.mk 2 "Battleship" 7 1 7 0 false).width
        (Ship.mk 2 "Battleship" 7 1 7 0 false).length
        (constOracle (0 + j)).1) = true ∧
    tryPlaceLoop constOracle (Ship.mk 2 "Battleship" 7 1 7 0 false) 2
      carrierOnlyBoard 0 = (carrierOnlyBoard, 0 + 2) :=
  ⟨by decide,
    placeAIShips_skips_exhausted_ship constOracle
      (Ship.mk 2 "Battleship" 7 1 7 0 false) 2 carrierOnlyBoard 0
      (by decide)⟩

theorem placeAIShips_returns_partial_fleet :
    countShipCells (placeAIShips constOracle) 1 = 14 ∧
    countShipCells (placeAIShips constOracle) 2 = 0 := by
  have hexh : ∀ (ship : Ship) (k : Nat),
      canPlaceShip carrierOnlyBoard 0 0 ship.width ship.length
        Orientation.horizontal = false →
      tryPlaceLoop constOracle ship 1000 carrierOnlyBoard k =
        (carrierOnlyBoard, k + 1000) := by
    intro ship k hf
    apply tryPlaceLoop_exhaust
    rw [List.all_eq_true]
    intro j _
    have e1 : (constOracle (k + j)).2.1 = 0 := rfl
    have e2 : (constOracle (k + j)).2.2 = 0 := rfl
    have e3 : (constOracle (k + j)).1 = Orientation.horizontal := rfl
    rw [e1, e2, e3, hf]
    rfl
  have step1 : tryPlaceLoop constOracle (Ship.mk 1 "Carrier" 14 2 7 0 false)
      1000 emptyBoard 0 = (carrierOnlyBoard, 1) := by
    rw [show (1000 : Nat) = 999 + 1 from rfl,
      tryPlaceLoop_first_success constOracle
        (Ship.mk 1 "Carrier" 14 2 7 0 false) 999 emptyBoard 0 (by decide)]
    rfl
  have hexhP : ∀ (ship : Ship) (k : Nat),
      canPlaceShip carrierOnlyBoard 0 0 ship.width ship.length
        Orientation.horizontal = false →
      placeOneShip constOracle (carrierOnlyBoard, k) ship =
        (carrierOnlyBoard, k + 1000) :=
    fun ship k hf => hexh ship k hf
  have step1P : placeOneShip constOracle (emptyBoard, 0)
      (Ship.mk 1 "Carrier" 14 2 7 0 false) = (carrierOnlyBoard, 1) := step1
  have hplace : placeAIShips constOracle = carrierOnlyBoard := by
    unfold placeAIShips SHIPS
    rw [foldl_step (placeOneShip constOracle) _ _ _ _ step1P,
      foldl_step (placeOneShip constOracle) _ _ _ _
        (hexhP (Ship.mk 2 "Battleship" 7 1 7 0 false) 1 (by decide)),
      foldl_step (placeOneShip constOracle) _ _ _ _
        (hexhP (Ship.mk 3 "Cruiser" 5 1 5 0 false) (1 + 1000) (by decide)),
      foldl_step (placeOneShip constOracle) _ _ _ _
        (hexhP (Ship.mk 4 "Destroyer" 4 1 4 0 false) (1 + 1000 + 1000)
          (by decide)),
      foldl_step (placeOneShip constOracle) _ _ _ _
        (hexhP (Ship.mk 5 "Submarine" 5 1 5 0 false)
          (1 + 1000 + 1000 + 1000) (by decide)),
      foldl_step (placeOneShip constOracle) _ _ _ _
        (hexhP (Ship.mk 6 "Rescue" 4 1 4 0 false)
          (1 + 1000 + 1000 + 1000 + 1000) (by decide)),
      foldl_step (placeOneShip constOracle) _ _ _ _
        (hexhP (Ship.mk 7 "Patrol" 2 1 2 0 false)
          (1 + 1000 + 1000 + 1000 + 1000 + 1000) (by decide))]
    rfl
  rw [hplace]
  constructor
  · decide
  · decide

end Battleships
